import Mathlib

/-!
Verification of the vault-sync engine (src/main.rs) against its design
specification.  The startup sequence, shutdown handler, listener accept
loop and the mpsc event-queue discipline are embedded from `main.rs`;
the translator, path rewriting and dry-run apply loop live in the `sync`
module, which is not among the provided sources, and are modelled from
the specification text (each such definition says so in its doc comment).
Secret paths are modelled as lists of path segments.
-/

namespace VaultSync

/-- A secret path, as a list of path segments. -/
abbrev Path := List String

/-- Embeds `sync::SecretOp` (the change events flowing through the
mpsc channel of `main.rs` line 51); the spec calls it `ChangeEvent`
with variants `Put{path, value}` and `Delete{path}`. -/
inductive ChangeEvent
  | put (path : Path) (value : String)
  | delete (path : Path)
deriving DecidableEq, Repr

/-- The path carried by a change event. -/
def pathOf : ChangeEvent → Path
  | ChangeEvent.put p _ => p
  | ChangeEvent.delete p => p

/-! ## Startup sequence of `main` (main.rs lines 21-71)

Each fallible external call of `main` is given an outcome by an
`Env`; `mainFn` replays `main`'s control flow over those outcomes,
recording which worker threads have been spawned and which actions
were performed, in program order, up to the point `main` returns. -/

/-- Outcome of the underlying audit-device deletion call, discarded by
the wrapper `delete_audit_device` (main.rs lines 121-123). -/
inductive DeleteOutcome
  | success
  | notFound
  | otherError
deriving DecidableEq, Repr, Fintype

/-- The worker threads `main` spawns: token renewal for each store
(lines 44, 49), the apply/sync worker (line 52), the listener accept
thread (line 138), and the full-reconciliation scanner (line 66). -/
inductive Worker
  | srcToken
  | dstToken
  | applyWorker
  | listener
  | fullScan
deriving DecidableEq, Repr, Fintype

/-- Externally visible actions of `main`, in program order. -/
inductive Action
  | loadConfig
  | connectSrc
  | connectDst
  | spawn (w : Worker)
  | deleteAudit
  | bindListener
  | addAudit
  | setHandler
  | joinAll
deriving DecidableEq, Repr

/-- Outcomes of the fallible calls `main` makes, one run's worth. -/
structure Env where
  loadConfigOk : Bool
  srcClientOk : Bool
  dstClientOk : Bool
  bindOk : Bool
  addAuditOk : Bool
  handlerOk : Bool
  deleteAuditOutcome : DeleteOutcome
deriving DecidableEq, Repr

/-- What a run of `main` did: whether it returned an error (the Rust
process then exits with a non-zero status), which workers had been
spawned by the time it returned, and the ordered action trace. -/
structure MainResult where
  err : Bool
  spawned : List Worker
  actions : List Action
deriving DecidableEq, Repr

/-- Embeds `delete_audit_device` (main.rs lines 121-123): the wrapper
calls `sync::audit_device_delete` as a statement and returns unit, so
every outcome of the underlying call — success, not-found, or any
other error — is discarded. -/
def delete_audit_device (o : DeleteOutcome) : Unit :=
  let _ := o
  ()

/-- Embeds the control flow of `main` (main.rs lines 21-71): load the
configuration, connect to the source store and spawn its token worker,
connect to the destination store and spawn its token worker, create the
mpsc channel and spawn the sync (apply) worker, unconditionally attempt
audit-device deletion, bind the listener and spawn the accept thread,
add the audit device, install the ctrl-c handler, spawn the full-sync
scanner, then join.  Every `?` in the Rust source becomes an early
return with `err := true`. -/
def mainFn (env : Env) : MainResult :=
  let a0 := [Action.loadConfig]
  if !env.loadConfigOk then ⟨true, [], a0⟩ else
  let a1 := a0 ++ [Action.connectSrc]
  if !env.srcClientOk then ⟨true, [], a1⟩ else
  let a2 := a1 ++ [Action.spawn Worker.srcToken, Action.connectDst]
  if !env.dstClientOk then ⟨true, [Worker.srcToken], a2⟩ else
  let _ := delete_audit_device env.deleteAuditOutcome
  let a3 := a2 ++ [Action.spawn Worker.dstToken, Action.spawn Worker.applyWorker,
    Action.deleteAudit, Action.bindListener]
  let s3 := [Worker.srcToken, Worker.dstToken, Worker.applyWorker]
  if !env.bindOk then ⟨true, s3, a3⟩ else
  let a4 := a3 ++ [Action.spawn Worker.listener, Action.addAudit]
  let s4 := s3 ++ [Worker.listener]
  if !env.addAuditOk then ⟨true, s4, a4⟩ else
  let a5 := a4 ++ [Action.setHandler]
  if !env.handlerOk then ⟨true, s4, a5⟩ else
  ⟨false, s4 ++ [Worker.fullScan], a5 ++ [Action.spawn Worker.fullScan, Action.joinAll]⟩

/-! ## The shared event queue (main.rs lines 51-59, 105-119)

`main` creates one `mpsc::channel`; the `Sender` is cloned to the
listener tasks and the scanner, while the single `Receiver` is moved
into the one sync-worker thread (mpsc receivers cannot be cloned), so
the apply stage is the sole consumer.  The channel delivers messages
in arrival order across all senders.  A run of the system is a list of
steps: any producer appending an event, or the single consumer taking
the front event (taking nothing when the queue is empty — `rx.recv()`
blocks there). -/

/-- One step of the queue system: a producer sends an event, or the
single apply worker receives the front event. -/
inductive QueueStep
  | send (e : ChangeEvent)
  | recv
deriving DecidableEq, Repr

/-- Queue system state: the pending queue contents and the sequence of
events the apply worker has dequeued and processed so far. -/
structure QueueState where
  queue : List ChangeEvent
  applied : List ChangeEvent
deriving DecidableEq, Repr

/-- One transition: `send` appends at the back; `recv` removes the
front event and appends it to the applied sequence, or leaves the
state unchanged when the queue is empty (the consumer blocks). -/
def stepFn (s : QueueState) : QueueStep → QueueState
  | QueueStep.send e => ⟨s.queue ++ [e], s.applied⟩
  | QueueStep.recv =>
    match s.queue with
    | [] => s
    | e :: rest => ⟨rest, s.applied ++ [e]⟩

/-- Run a list of steps from a given state. -/
def runFrom (s : QueueState) (steps : List QueueStep) : QueueState :=
  steps.foldl stepFn s

/-- Run a list of steps from the empty initial state. -/
def run (steps : List QueueStep) : QueueState :=
  runFrom ⟨[], []⟩ steps

/-- The events sent during a run, in arrival order across all
producers. -/
def sent (steps : List QueueStep) : List ChangeEvent :=
  steps.filterMap fun st =>
    match st with
    | QueueStep.send e => some e
    | QueueStep.recv => none

theorem sent_cons_send (e : ChangeEvent) (steps : List QueueStep) :
    sent (QueueStep.send e :: steps) = e :: sent steps := rfl

theorem sent_cons_recv (steps : List QueueStep) :
    sent (QueueStep.recv :: steps) = sent steps := rfl

theorem runFrom_invariant (steps : List QueueStep) (s : QueueState) :
    (runFrom s steps).applied ++ (runFrom s steps).queue =
      s.applied ++ s.queue ++ sent steps := by
  induction steps generalizing s with
  | nil => simp [runFrom, sent]
  | cons st rest ih =>
    cases st with
    | send e =>
      have h := ih ⟨s.queue ++ [e], s.applied⟩
      simp only [runFrom, List.foldl_cons, stepFn] at h ⊢
      rw [h, sent_cons_send]
      simp
    | recv =>
      obtain ⟨q, ap⟩ := s
      cases q with
      | nil =>
        have h := ih ⟨[], ap⟩
        simp only [runFrom, List.foldl_cons, stepFn] at h ⊢
        rw [h, sent_cons_recv]
      | cons e q' =>
        have h := ih ⟨q', ap ++ [e]⟩
        simp only [runFrom, List.foldl_cons, stepFn] at h ⊢
        rw [h, sent_cons_recv]
        simp

/-! ## The listener accept loop (main.rs lines 134-150)

`log_sync_worker` binds the listener once, then iterates over
`listener.incoming()`; each `Ok(stream)` spawns one ingestion thread
and each error is skipped; the loop body never breaks and never drops
the listener.  The loop is embedded over any finite list of accept
results. -/

/-- One result of `listener.incoming()`: an accepted connection
(identified by a number) or an accept error. -/
inductive AcceptResult
  | ok (connId : Nat)
  | err
deriving DecidableEq, Repr

/-- Actions the accept loop could take.  `closeListener` is included
so that its absence from every trace is a statement, not a typing
accident. -/
inductive LoopAction
  | spawnTask (connId : Nat)
  | closeListener
deriving DecidableEq, Repr

/-- Embeds the accept loop of `log_sync_worker` (main.rs lines
139-147): for each accepted connection spawn one ingestion task, skip
accept errors, continue with the rest of the stream either way. -/
def acceptLoop : List AcceptResult → List LoopAction
  | [] => []
  | AcceptResult.ok c :: rest => LoopAction.spawnTask c :: acceptLoop rest
  | AcceptResult.err :: rest => acceptLoop rest

/-! ## The ctrl-c handler (main.rs lines 164-175)

The installed closure logs, locks the source client, calls
`delete_audit_device` (whose outcome is discarded), and only then
calls `std::process::exit(0)`. -/

/-- Actions of the shutdown handler, in order. -/
inductive HandlerAction
  | logShutdown
  | lockClient
  | deleteDevice (o : DeleteOutcome)
  | exitProcess (code : Nat)
deriving DecidableEq, Repr

/-- Embeds the closure installed by `ctrlc_handler` (main.rs lines
166-171): the ordered actions it performs and the exit status it ends
the process with, as a function of the audit-device deletion
outcome. -/
def ctrlcRun (o : DeleteOutcome) : List HandlerAction × Nat :=
  let _ := delete_audit_device o
  ([HandlerAction.logShutdown, HandlerAction.lockClient,
    HandlerAction.deleteDevice o, HandlerAction.exitProcess 0], 0)

/-! ## The audit record translator (spec 4.3)

Modelled from the spec: the `sync`/`audit` modules are not among the
provided sources.  Per 4.3, a line either fails to parse (discarded,
connection continues) or yields an `AuditRecord` with a verb, a path
and an outcome; only write/delete verbs with success outcome under the
watched source path produce a `ChangeEvent`. -/

/-- The request verb of an audit record (spec 3). -/
inductive Verb
  | read
  | write
  | delete
  | other
deriving DecidableEq, Repr

/-- The outcome of the audited request (spec 3). -/
inductive AuditOutcome
  | success
  | failure
deriving DecidableEq, Repr

/-- Modelled from the spec (3, AuditRecord): one parsed audit line —
verb, request path, outcome, and the written payload for writes. -/
structure AuditRecord where
  verb : Verb
  path : Path
  outcome : AuditOutcome
  value : String
deriving DecidableEq, Repr

/-- Modelled from the spec (4.3, `translate(line) -> ChangeEvent |
none`): the parse result of the line is `none` on parse failure;
write-with-success under the watched source path maps to `Put`,
delete-with-success under the watched source path maps to `Delete`,
everything else is discarded. -/
def translate (watched : Path) : Option AuditRecord → Option ChangeEvent
  | none => none
  | some r =>
    if r.outcome = AuditOutcome.success ∧ watched.isPrefixOf r.path = true then
      match r.verb with
      | Verb.write => some (ChangeEvent.put r.path r.value)
      | Verb.delete => some (ChangeEvent.delete r.path)
      | _ => none
    else none

/-- Modelled from the spec (4.2/4.3): one ingestion task hands each
line of its connection to the translator and pushes each produced
event; a failed line is discarded and the task keeps going with the
remaining lines. -/
def ingest (watched : Path) (lines : List (Option AuditRecord)) : List ChangeEvent :=
  lines.filterMap (translate watched)

/-- Modelled from the spec (4.4, Reconciliation Scanner): one scan
cycle emits a `Put` with the current source value for every leaf found
under the watched source path, and nothing else. -/
def scanEvents (watched : Path) (leaves : List (Path × String)) : List ChangeEvent :=
  leaves.map fun l => ChangeEvent.put (watched ++ l.1) l.2

/-! ## Path rewriting and the apply stage (spec 4.5)

Modelled from the spec: the apply loop lives in `sync::sync_worker`,
not among the provided sources.  Per 4.5, each dequeued event's path
has its leading watched-source part replaced by the destination part;
with dry-run enabled the operation is logged and treated as a
successful no-op, otherwise a destination write or delete is
issued. -/

/-- A call issued against the destination store. -/
inductive DstCall
  | write (p : Path) (v : String)
  | delete (p : Path)
deriving DecidableEq, Repr

/-- Modelled from the spec (4.5): rewrite a path by replacing the
leading watched-source part with the destination part. -/
def rewritePath (watched dest p : Path) : Path :=
  dest ++ p.drop watched.length

/-- Modelled from the spec (4.5): process one dequeued event — rewrite
its path, then either no-op (dry-run) or issue the destination call. -/
def applyEvent (watched dest : Path) (dryRun : Bool) (e : ChangeEvent) : List DstCall :=
  if dryRun then []
  else
    match e with
    | ChangeEvent.put p v => [DstCall.write (rewritePath watched dest p) v]
    | ChangeEvent.delete p => [DstCall.delete (rewritePath watched dest p)]

/-- Modelled from the spec (4.5): drain the queued events one at a
time in order, collecting the destination calls issued; returns the
calls and the events left in the queue afterwards. -/
def drain (watched dest : Path) (dryRun : Bool) : List ChangeEvent → List DstCall × List ChangeEvent
  | [] => ([], [])
  | e :: rest =>
    let r := drain watched dest dryRun rest
    (applyEvent watched dest dryRun e ++ r.1, r.2)

/-- The destination store's state, as a map from paths to stored
values. -/
def DstState := Path → Option String

/-- Effect of one destination call on the destination state. -/
def applyCall (s : DstState) : DstCall → DstState
  | DstCall.write p v => fun q => if q = p then some v else s q
  | DstCall.delete p => fun q => if q = p then none else s q

/-- Effect of a sequence of destination calls. -/
def applyCalls (s : DstState) (cs : List DstCall) : DstState :=
  cs.foldl applyCall s

/-- Replace the audit-device-deletion outcome of an environment. -/
def withOutcome (env : Env) (o : DeleteOutcome) : Env :=
  ⟨env.loadConfigOk, env.srcClientOk, env.dstClientOk, env.bindOk,
    env.addAuditOk, env.handlerOk, o⟩

/-- In dry-run mode draining produces no destination calls and leaves
no queued events. -/
theorem drain_dry (watched dest : Path) (q : List ChangeEvent) :
    drain watched dest true q = ([], []) := by
  induction q with
  | nil => rfl
  | cons e rest ih => simp [drain, applyEvent, ih]

/-! ## Claim theorems -/

/-- Claim C1: the apply stage is the sole consumer of the shared
change-event queue; across any interleaving of producer sends and
consumer receives, the sequence of applied events followed by the
still-queued events equals the full arrival-order sequence, and the
applied sequence is exactly the first `k` arrivals in arrival order —
so two events affecting the same path are never reordered, and each
receive applies one event at a time. -/
theorem apply_consumes_in_arrival_order (steps : List QueueStep) :
    (run steps).applied ++ (run steps).queue = sent steps ∧
    (run steps).applied = (sent steps).take (run steps).applied.length := by
  have h : (run steps).applied ++ (run steps).queue = sent steps := by
    have h0 := runFrom_invariant steps ⟨[], []⟩
    simpa [run] using h0
  refine ⟨h, ?_⟩
  rw [← h, List.take_left]

/-- Claim C4: on the termination signal, the installed handler
performs the audit-device deregistration and the process exit happens
only after that deregistration attempt has completed: the exit action
is the last action and immediately follows the deletion attempt. -/
theorem shutdown_deregisters_before_exit :
    ∀ o : DeleteOutcome,
      (ctrlcRun o).1 = [HandlerAction.logShutdown, HandlerAction.lockClient,
        HandlerAction.deleteDevice o, HandlerAction.exitProcess 0] ∧
      ∃ pre, (ctrlcRun o).1 =
        pre ++ [HandlerAction.deleteDevice o, HandlerAction.exitProcess ((ctrlcRun o).2)] := by
  intro o
  exact ⟨rfl, [HandlerAction.logShutdown, HandlerAction.lockClient], rfl⟩

/-- Claim C7: the accept loop never closes the listener; it spawns
exactly one ingestion task per accepted connection and keeps
processing the whole accept stream past any error or earlier
connection's end. -/
theorem listener_never_closed (accepts : List AcceptResult) :
    LoopAction.closeListener ∉ acceptLoop accepts ∧
    acceptLoop accepts = accepts.filterMap (fun a =>
      match a with
      | AcceptResult.ok c => some (LoopAction.spawnTask c)
      | AcceptResult.err => none) ∧
    (∀ c, AcceptResult.ok c ∈ accepts → LoopAction.spawnTask c ∈ acceptLoop accepts) := by
  induction accepts with
  | nil => simp [acceptLoop]
  | cons a rest ih =>
    obtain ⟨h1, h2, h3⟩ := ih
    cases a with
    | ok c =>
      refine ⟨?_, ?_, ?_⟩
      · simp [acceptLoop, h1]
      · simp [acceptLoop, h2]
      · intro c' hc'
        rcases List.mem_cons.mp hc' with h | h
        · injection h with h
          subst h
          simp [acceptLoop]
        · simp [acceptLoop, h3 c' h]
    | err =>
      refine ⟨?_, ?_, ?_⟩
      · simpa [acceptLoop] using h1
      · simpa [acceptLoop] using h2
      · intro c' hc'
        rcases List.mem_cons.mp hc' with h | h
        · exact absurd h (by simp)
        · simpa [acceptLoop] using h3 c' h

/-- Witness for C7 at a concrete accept stream: an error and an
earlier connection do not stop later connections from being served,
and the listener is never closed. -/
theorem listener_never_closed_witness :
    LoopAction.closeListener ∉
      acceptLoop [AcceptResult.ok 1, AcceptResult.err, AcceptResult.ok 2] ∧
    LoopAction.spawnTask 2 ∈
      acceptLoop [AcceptResult.ok 1, AcceptResult.err, AcceptResult.ok 2] := by
  have h := listener_never_closed [AcceptResult.ok 1, AcceptResult.err, AcceptResult.ok 2]
  exact ⟨h.1, h.2.2 2 (by decide)⟩

/-- Claim C8: with dry-run enabled, draining any queue of events
issues zero destination calls, leaves the destination state unchanged,
and empties the queue. -/
theorem dry_run_no_destination_calls (watched dest : Path)
    (q : List ChangeEvent) (s : DstState) :
    (drain watched dest true q).1 = [] ∧
    (drain watched dest true q).2 = [] ∧
    applyCalls s (drain watched dest true q).1 = s := by
  rw [drain_dry]
  exact ⟨rfl, rfl, rfl⟩

/-- Claim C9: the termination-signal handler exits with status 0 for
every possible outcome of the audit-device deletion — the outcome is
discarded and cannot change the exit status. -/
theorem ctrlc_exit_zero_always :
    ∀ o : DeleteOutcome,
      (ctrlcRun o).2 = 0 ∧ HandlerAction.exitProcess 0 ∈ (ctrlcRun o).1 := by
  intro o
  refine ⟨rfl, ?_⟩
  simp [ctrlcRun]

/-- Claim C2 counterexample: when the listener bind fails, `main`
does return an error (non-zero exit), but the two token workers and
the apply worker have already been started — the claim's "before any
worker task has been started" is false on the code. -/
theorem startup_failure_after_workers_counterexample :
    (mainFn ⟨true, true, true, false, true, true, DeleteOutcome.success⟩).err = true ∧
    (mainFn ⟨true, true, true, false, true, true, DeleteOutcome.success⟩).spawned =
      [Worker.srcToken, Worker.dstToken, Worker.applyWorker] ∧
    (mainFn ⟨true, true, true, false, true, true, DeleteOutcome.success⟩).spawned ≠ [] := by
  decide

/-- Claim C2 (amended): every unrecoverable startup failure — source
or destination authentication failure, listener bind failure, or sink
registration failure — makes `main` return an error, so the process
exits with a non-zero status; but worker tasks may already have been
started by then: only the reconciliation scanner is never running
before such an exit. -/
theorem startup_failure_nonzero_exit (env : Env) :
    (env.srcClientOk = false → (mainFn env).err = true) ∧
    (env.dstClientOk = false → (mainFn env).err = true) ∧
    (env.bindOk = false → (mainFn env).err = true) ∧
    (env.addAuditOk = false → (mainFn env).err = true) ∧
    ((mainFn env).err = true → Worker.fullScan ∉ (mainFn env).spawned) := by
  obtain ⟨l, s, d, b, a, h, o⟩ := env
  cases l <;> cases s <;> cases d <;> cases b <;> cases a <;> cases h <;> cases o <;> decide

/-- Witness for the amended C2 at a concrete run with a failing bind:
the exit is non-zero and the scanner was never started. -/
theorem startup_failure_nonzero_exit_witness :
    (mainFn ⟨true, true, true, false, true, true, DeleteOutcome.notFound⟩).err = true ∧
    Worker.fullScan ∉
      (mainFn ⟨true, true, true, false, true, true, DeleteOutcome.notFound⟩).spawned := by
  have h := startup_failure_nonzero_exit ⟨true, true, true, false, true, true, DeleteOutcome.notFound⟩
  exact ⟨h.2.2.1 rfl, h.2.2.2.2 (h.2.2.1 rfl)⟩

/-- Claim C3: once both store connections are up, `main` always
attempts audit-device deregistration (whatever its outcome, including
errors other than not-found), then — whenever the bind succeeds —
performs the registration strictly after the deregistration; a failed
registration makes `main` return an error, hence a non-zero exit. -/
theorem startup_deregister_then_register (env : Env)
    (hl : env.loadConfigOk = true) (hs : env.srcClientOk = true)
    (hd : env.dstClientOk = true) :
    Action.deleteAudit ∈ (mainFn env).actions ∧
    Action.bindListener ∈ (mainFn env).actions ∧
    (env.bindOk = true →
      Action.addAudit ∈ (mainFn env).actions ∧
      (mainFn env).actions.indexOf Action.deleteAudit <
        (mainFn env).actions.indexOf Action.addAudit) ∧
    (env.bindOk = true → env.addAuditOk = false → (mainFn env).err = true) := by
  obtain ⟨l, s, d, b, a, h, o⟩ := env
  subst hl hs hd
  cases b <;> cases a <;> cases h <;> cases o <;> decide

/-- Witness for C3 at concrete runs: with every call succeeding the
deregistration precedes the registration, and with only the
registration failing the run errors out. -/
theorem startup_deregister_then_register_witness :
    Action.deleteAudit ∈
      (mainFn ⟨true, true, true, true, true, true, DeleteOutcome.notFound⟩).actions ∧
    (mainFn ⟨true, true, true, true, true, true, DeleteOutcome.notFound⟩).actions.indexOf
        Action.deleteAudit <
      (mainFn ⟨true, true, true, true, true, true, DeleteOutcome.notFound⟩).actions.indexOf
        Action.addAudit ∧
    (mainFn ⟨true, true, true, true, false, true, DeleteOutcome.success⟩).err = true := by
  have h1 := startup_deregister_then_register
    ⟨true, true, true, true, true, true, DeleteOutcome.notFound⟩ rfl rfl rfl
  have h2 := startup_deregister_then_register
    ⟨true, true, true, true, false, true, DeleteOutcome.success⟩ rfl rfl rfl
  exact ⟨h1.1, (h1.2.2.1 rfl).2, h2.2.2.2 rfl rfl⟩

/-- Claim C10: the startup deregistration can never fail startup —
`main`'s behaviour is identical for every outcome of the underlying
deletion call, and once both clients are connected `main` proceeds to
bind the listener (and, when the bind succeeds, to register the fresh
sink) regardless of that outcome. -/
theorem delete_outcome_ignored (env : Env) (o₁ o₂ : DeleteOutcome) :
    mainFn (withOutcome env o₁) = mainFn (withOutcome env o₂) ∧
    (env.loadConfigOk = true → env.srcClientOk = true → env.dstClientOk = true →
      Action.bindListener ∈ (mainFn env).actions ∧
      (env.bindOk = true → Action.addAudit ∈ (mainFn env).actions)) := by
  obtain ⟨l, s, d, b, a, h, o⟩ := env
  cases l <;> cases s <;> cases d <;> cases b <;> cases a <;> cases h <;> cases o <;>
    exact ⟨rfl, by decide⟩

/-- Witness for C10 at a concrete run: a not-found and an arbitrary
error outcome of the deletion give the very same run, which still
binds the listener and registers the sink. -/
theorem delete_outcome_ignored_witness :
    mainFn (withOutcome ⟨true, true, true, true, true, true, DeleteOutcome.success⟩
        DeleteOutcome.notFound) =
      mainFn (withOutcome ⟨true, true, true, true, true, true, DeleteOutcome.success⟩
        DeleteOutcome.otherError) ∧
    Action.bindListener ∈
      (mainFn ⟨true, true, true, true, true, true, DeleteOutcome.success⟩).actions ∧
    Action.addAudit ∈
      (mainFn ⟨true, true, true, true, true, true, DeleteOutcome.success⟩).actions := by
  have h := delete_outcome_ignored ⟨true, true, true, true, true, true, DeleteOutcome.success⟩
    DeleteOutcome.notFound DeleteOutcome.otherError
  exact ⟨h.1, (h.2 rfl rfl rfl).1, (h.2 rfl rfl rfl).2 rfl⟩

/-- Claim C5: a successful write under the watched source path
translates to exactly the matching `Put`, a successful delete to the
matching `Delete`; any other verb, a non-success outcome, a path not
under the watched source path, or an unparseable line yields no event;
and a failed line does not stop ingestion of the remaining lines. -/
theorem translate_audit_records (watched : Path) (r : AuditRecord) :
    (r.outcome = AuditOutcome.success → watched.isPrefixOf r.path = true →
      (r.verb = Verb.write →
        translate watched (some r) = some (ChangeEvent.put r.path r.value)) ∧
      (r.verb = Verb.delete →
        translate watched (some r) = some (ChangeEvent.delete r.path))) ∧
    (r.verb = Verb.read ∨ r.verb = Verb.other → translate watched (some r) = none) ∧
    (r.outcome = AuditOutcome.failure → translate watched (some r) = none) ∧
    (watched.isPrefixOf r.path = false → translate watched (some r) = none) ∧
    translate watched none = none ∧
    (∀ rest : List (Option AuditRecord),
      ingest watched (none :: rest) = ingest watched rest) := by
  obtain ⟨v, p, o, val⟩ := r
  refine ⟨?_, ?_, ?_, ?_, rfl, ?_⟩
  · intro ho hp
    simp only [] at ho hp
    constructor
    · intro hv
      simp only [] at hv
      subst ho hv
      simp [translate, hp]
    · intro hv
      simp only [] at hv
      subst ho hv
      simp [translate, hp]
  · intro hv
    rcases hv with hv | hv <;> subst hv <;>
      simp only [translate] <;> split <;> rfl
  · intro ho
    subst ho
    simp only [translate]
    split
    · rename_i hcond
      exact absurd hcond.1 (by simp)
    · rfl
  · intro hp
    simp only [translate]
    split
    · rename_i hcond
      exact absurd hcond.2 (by simp [hp])
    · rfl
  · intro rest
    simp [ingest, translate]

/-- Witness for C5 at concrete records: a successful write under the
watched source path maps to its `Put`, and a read is discarded. -/
theorem translate_audit_records_witness :
    translate ["secret", "app"]
        (some ⟨Verb.write, ["secret", "app", "foo"], AuditOutcome.success, "v1"⟩) =
      some (ChangeEvent.put ["secret", "app", "foo"] "v1") ∧
    translate ["secret", "app"]
        (some ⟨Verb.read, ["secret", "app", "foo"], AuditOutcome.success, ""⟩) = none := by
  have h1 := translate_audit_records ["secret", "app"]
    ⟨Verb.write, ["secret", "app", "foo"], AuditOutcome.success, "v1"⟩
  have h2 := translate_audit_records ["secret", "app"]
    ⟨Verb.read, ["secret", "app", "foo"], AuditOutcome.success, ""⟩
  exact ⟨(h1.1 rfl (by decide)).1 rfl, h2.2.1 (Or.inl rfl)⟩

/-- Claim C6: path rewriting is prefix-exact — a path `watched ++ x`
always rewrites to `dest ++ x` — and neither the translator nor the
scanner ever constructs an event whose path is outside the watched
source path. -/
theorem rewrite_prefix_exact :
    (∀ watched dest x : Path, rewritePath watched dest (watched ++ x) = dest ++ x) ∧
    (∀ (watched : Path) (parsed : Option AuditRecord) (e : ChangeEvent),
      translate watched parsed = some e → watched.isPrefixOf (pathOf e) = true) ∧
    (∀ (watched : Path) (leaves : List (Path × String)) (e : ChangeEvent),
      e ∈ scanEvents watched leaves → watched.isPrefixOf (pathOf e) = true) := by
  refine ⟨?_, ?_, ?_⟩
  · intro watched dest x
    simp [rewritePath]
  · intro watched parsed e h
    cases parsed with
    | none => exact absurd h (by simp [translate])
    | some r =>
      simp only [translate] at h
      split at h
      · rename_i hcond
        cases hv : r.verb <;> rw [hv] at h
        · exact absurd h (by simp)
        · injection h with h
          subst h
          simpa [pathOf] using hcond.2
        · injection h with h
          subst h
          simpa [pathOf] using hcond.2
        · exact absurd h (by simp)
      · exact absurd h (by simp)
  · intro watched leaves e h
    simp only [scanEvents, List.mem_map] at h
    obtain ⟨l, _, hl⟩ := h
    subst hl
    simp [pathOf, List.isPrefixOf_iff_prefix]

/-- Witness for C6 at concrete paths: the rewrite of a path under the
watched source path, and the translator only producing a path under
the watched source path. -/
theorem rewrite_prefix_exact_witness :
    rewritePath ["secret", "app"] ["copy"] (["secret", "app"] ++ ["x"]) =
      ["copy"] ++ ["x"] ∧
    List.isPrefixOf ["secret", "app"] (pathOf (ChangeEvent.delete ["secret", "app", "x"])) =
      true := by
  have h := rewrite_prefix_exact
  refine ⟨h.1 ["secret", "app"] ["copy"] ["x"], ?_⟩
  exact h.2.1 ["secret", "app"]
    (some ⟨Verb.delete, ["secret", "app", "x"], AuditOutcome.success, ""⟩)
    (ChangeEvent.delete ["secret", "app", "x"]) (by decide)

end VaultSync
